import Mathlib

/-!
Verification of the pdf-watermark-remover pipeline.

Shallow embedding of the Python sources:
  pdf_processor_complete.py      (PDFWatermarkProcessor)
  rsc/pdf_to_images.py           (PDFToImages)
  rsc/image_watermark_remover.py (ImageWatermarkRemover)
  rsc/images_to_pdf.py           (ImagesToPDF)
  rsc/main.py                    (tkinter GUI)

File-system effects (folder listings, rename/rmtree success, browser and
web-service behaviour) are passed in explicitly as environment records, so
every function here is a pure, executable translation of the corresponding
Python control flow.
-/

set_option maxRecDepth 8000

/-- A file path, modelled as a directory plus final component, mirroring the
way the Python code only ever builds paths with os.path.join and reads them
back with os.path.basename. -/
structure FPath where
  dir : String
  base : String
deriving DecidableEq

/-- os.path.join for a directory and a bare file name. -/
def joinPath (d : String) (b : String) : FPath := ⟨d, b⟩

/-- os.path.basename of a path built by joinPath. -/
def basename (p : FPath) : String := p.base

/-- Index of the last occurrence of a dot in a character list, as computed by
str.rfind in pathlib PurePath.stem / PurePath.suffix. -/
def lastDotIdx : List Char → Option Nat
  | [] => none
  | c :: rest =>
    match lastDotIdx rest with
    | some k => some (k + 1)
    | none => if c = '.' then some 0 else none

/-- Character-level computation behind pathlib PurePath.stem: the name
without its last suffix.  The suffix is only stripped when the last dot is
neither the first nor the last character of the name. -/
def stemFrom (cs : List Char) : List Char :=
  match lastDotIdx cs with
  | some i => if 0 < i ∧ i < cs.length - 1 then cs.take i else cs
  | none => cs

/-- Character-level computation behind pathlib PurePath.suffix. -/
def suffixFrom (cs : List Char) : List Char :=
  match lastDotIdx cs with
  | some i => if 0 < i ∧ i < cs.length - 1 then cs.drop i else []
  | none => []

/-- pathlib Path(name).stem. -/
def pyStemName (nm : String) : String := String.mk (stemFrom nm.data)

/-- pathlib Path(name).suffix: the last extension including the dot, or the
empty string when there is none. -/
def pySuffixName (nm : String) : String := String.mk (suffixFrom nm.data)

/-- str.endswith for a single pattern. -/
def endsWithStr (s pat : String) : Bool := pat.data.isSuffixOf s.data

/-- str.lower for the ASCII format names used by the code. -/
def lowerStr (s : String) : String := String.mk (s.data.map Char.toLower)

/-- Python string comparison (codepoint-lexicographic), used both by sorted()
and by pathlib path ordering. -/
def strDataLe (a b : String) : Prop := a.data ≤ b.data

instance : DecidableRel strDataLe := fun a b => by
  unfold strDataLe; infer_instance

instance : IsTotal String strDataLe := ⟨fun a b => le_total a.data b.data⟩

instance : IsTrans String strDataLe := ⟨fun _ _ _ hab hbc => le_trans hab hbc⟩

/-- Comparison of paths by os.path.basename, the sort key used by
ImagesToPDF.convert_images_to_pdf. -/
def pathKeyLe (a b : FPath) : Prop := (basename a).data ≤ (basename b).data

instance : DecidableRel pathKeyLe := fun a b => by
  unfold pathKeyLe; infer_instance

instance : IsTotal FPath pathKeyLe := ⟨fun a b => le_total (basename a).data (basename b).data⟩

instance : IsTrans FPath pathKeyLe := ⟨fun _ _ _ hab hbc => le_trans hab hbc⟩

/-- sorted(image_paths, key=os.path.basename): a stable ascending sort by
basename (Python sorted is stable; insertionSort is the stable sort used as
its model). -/
def sortByBasename (ps : List FPath) : List FPath := ps.insertionSort pathKeyLe

/-- pdf_files.sort() in PDFWatermarkProcessor.process_multiple_pdfs. -/
def sortFilenames (l : List String) : List String := l.insertionSort strDataLe

/-! ## Decimal page numbering

Python writes page numbers with the format spec 03d: the decimal
representation left-padded with zeros to a minimum width of three. -/

/-- Format spec 03d as used in the page-image file names. -/
def fmt03d (i : Nat) : String :=
  String.mk (List.replicate (3 - (Nat.repr i).length) '0') ++ Nat.repr i

/-- The ASCII digit character of d (meaningful for d < 10). -/
def dch (d : Nat) : Char := Char.ofNat (48 + d)

/-- The three digit characters of a number below 1000. -/
def digits3 (i : Nat) : List Char := [dch (i / 100), dch (i / 10 % 10), dch (i % 10)]

/-! ## PDFToImages (rsc/pdf_to_images.py)

The converter is constructed with a dpi (default 300) and an image format
(default PNG); _convert_with_pdf2image passes self.dpi to convert_from_path
and writes one file per returned page image, named
stem_page_NNN.fmt with NNN the 03d page number starting at 1.  The first
component of the result records the dpi that was handed to the rasterizer
(none when the PDF does not exist and no conversion is attempted). -/

structure PDFToImages where
  dpi : Nat
  image_format : String
deriving DecidableEq

/-- PDFToImages() with the constructor defaults. -/
def mkPDFToImages : PDFToImages := ⟨300, "PNG"⟩

/-- External behaviour seen by convert_pdf_to_images. -/
structure RasterEnv where
  pdfExists : Bool
  pageCount : Nat

/-- The file name given to the image of page i. -/
def imageFilename (pdfStem fmt : String) (i : Nat) : String :=
  pdfStem ++ "_page_" ++ fmt03d i ++ "." ++ fmt

def convert_pdf_to_images (c : PDFToImages) (env : RasterEnv) (pdfPath : FPath)
    (outputFolder : String) : Option Nat × List FPath :=
  if ¬ env.pdfExists then (none, [])
  else
    (some c.dpi,
     (List.range env.pageCount).map
       (fun k => joinPath outputFolder
         (imageFilename (pyStemName pdfPath.base) (lowerStr c.image_format) (k + 1))))

/-! ## ImageWatermarkRemover.process_multiple_images

The loop calls process_single_image on each path in order; a falsy result is
only logged and the loop moves on, a truthy result is appended to the
accumulator.  The behaviour of process_single_image (navigation, upload,
polling, download) is abstracted as the function argument. -/

def process_multiple_images (α β : Type) (f : α → Option β) : List α → List β
  | [] => []
  | p :: ps =>
    match f p with
    | some r => r :: process_multiple_images α β f ps
    | none => process_multiple_images α β f ps

/-! ## ImageWatermarkRemover.find_upload_input

A fixed selector list is probed in order; a selector whose lookup times out,
raises, or yields a disabled element is skipped; the first found-and-enabled
element is returned. -/

/-- A located DOM element; only its enabled flag is observed by the code. -/
structure UploadEl where
  enabled : Bool
deriving DecidableEq

/-- The literal selector list of find_upload_input (apostrophes escaped). -/
def uploadSelectors : List String :=
  ["input[type=\x27file\x27]", "#uploadImage", ".upload-input",
   "[accept*=\x27image\x27]", ".file-input", "[data-testid*=\x27upload\x27]"]

/-- The probing loop of find_upload_input over a selector list.  lookup
returns none when the WebDriverWait times out or raises. -/
def probeSelectors (lookup : String → Option UploadEl) : List String → Option UploadEl
  | [] => none
  | sel :: rest =>
    match lookup sel with
    | some el => if el.enabled then some el else probeSelectors lookup rest
    | none => probeSelectors lookup rest

def find_upload_input (lookup : String → Option UploadEl) : Option UploadEl :=
  probeSelectors lookup uploadSelectors

/-! ## ImageWatermarkRemover.download_processed_image

After the click, the folder is polled once a second for at most
download_timeout = 60 seconds.  Files present before the click are ignored;
files whose names end in .crdownload, .tmp or .part are treated as still in
progress.  The first completed new file is renamed to
processed_(stem of the original)(ext), where ext is the downloaded file's
suffix, falling back to the original's suffix when the downloaded name has
none; when the rename raises, the unrenamed download path is returned. -/

structure DLEnv where
  folder : String
  before : List String
  listing : Nat → List String
  renameOk : Bool

/-- Matches f.endswith(('.crdownload', '.tmp', '.part')). -/
def isIncompleteDownload (f : String) : Bool :=
  endsWithStr f ".crdownload" || endsWithStr f ".tmp" || endsWithStr f ".part"

/-- The completed files of listing t that were not present before the click. -/
def completeNewFiles (env : DLEnv) (t : Nat) : List String :=
  ((env.listing t).filter (fun f => !(env.before.contains f))).filter
    (fun f => !(isIncompleteDownload f))

def downloadTimeout : Nat := 60

/-- new_name = "processed_" + stem + downloaded_ext, with downloaded_ext
falling back to the original extension when the downloaded name has none
(Python: Path(downloaded_file).suffix or original_ext). -/
def renamedDownloadName (orig f : String) : String :=
  "processed_" ++ pyStemName orig ++
    (if pySuffixName f = "" then pySuffixName orig else pySuffixName f)

/-- The value returned once a completed download f is found. -/
def dlFinish (env : DLEnv) (orig f : String) : FPath :=
  if env.renameOk then joinPath env.folder (renamedDownloadName orig f)
  else joinPath env.folder f

/-- The polling loop; fuel is the number of remaining one-second ticks. -/
def dlPoll (env : DLEnv) (orig : String) : Nat → Nat → Option FPath
  | 0, _ => none
  | fuel + 1, t =>
    match (completeNewFiles env t).head? with
    | some f => some (dlFinish env orig f)
    | none => dlPoll env orig fuel (t + 1)

def download_processed_image (env : DLEnv) (orig : String) : Option FPath :=
  dlPoll env orig downloadTimeout 0

/-- The name promised by the claim text for the downloaded file: the original
stem with the downloaded file's extension (no fallback).  Kept separate from
renamedDownloadName so the two can be compared. -/
def c7ClaimedName (orig f : String) : String :=
  "processed_" ++ pyStemName orig ++ pySuffixName f

/-! ## ImagesToPDF.convert_images_to_pdf (rsc/images_to_pdf.py)

Returns False when PIL is missing or the input list is empty; sorts the
paths by basename; silently drops paths that do not exist, then paths whose
images cannot be opened; returns False when either filter leaves nothing;
otherwise saves and reports success exactly when the output file exists
afterwards.  The second component is the number of pages written. -/

structure ImgEnv where
  pilAvailable : Bool
  fileExists : FPath → Bool
  openOk : FPath → Bool
  saveOk : Bool

def convert_images_to_pdf (env : ImgEnv) (image_paths : List FPath) (_out_pdf : FPath) :
    Bool × Nat :=
  if ¬ env.pilAvailable then (false, 0)
  else if image_paths.isEmpty then (false, 0)
  else
    let sorted := sortByBasename image_paths
    let valid := sorted.filter env.fileExists
    if valid.isEmpty then (false, 0)
    else
      let processed := valid.filter env.openOk
      if processed.isEmpty then (false, 0)
      else if env.saveOk then (true, processed.length) else (false, processed.length)

/-! ## The full pipeline of one page image (used by the page-order claim)

In the success scenario each page k of the PDF is rasterized to
stem_page_KKK.png, processed by the web service, and the download is renamed
to processed_(stem of the image name)(dlExt).  The reassembly step then
sorts these paths by basename. -/

/-- download_processed_image's rename applied to a page-image name. -/
def processedFilename (origName dlExt : String) : String :=
  "processed_" ++ pyStemName origName ++ dlExt

/-- The processed-image name of page k in the success scenario. -/
def pipelinePage (pdfStem dlExt : String) (k : Nat) : String :=
  processedFilename (imageFilename pdfStem "png" k) dlExt

/-- The processed-image paths of an n-page PDF, in page order. -/
def pipelinePaths (tmp pdfStem dlExt : String) (n : Nat) : List FPath :=
  (List.range n).map (fun k => joinPath tmp (pipelinePage pdfStem dlExt (k + 1)))

/-! ## PDFWatermarkProcessor.process_single_pdf (pdf_processor_complete.py)

The five steps, their early returns, and the inner/outer finally blocks.
The state records the temp_folder field, whether the temp directory is still
on disk, whether an ImageWatermarkRemover was constructed, whether its
driver field is set, and whether a browser process is running.  rmtreeOk and
quitOk say whether shutil.rmtree and driver.quit raise (both exceptions are
caught and only logged by the Python code). -/

structure PipeEnv where
  pdfExists : Bool
  mkdtempOk : Bool
  tempName : String
  convertedImages : List String
  setupChromeOk : Bool
  siteResult : FPath → Option FPath
  createPdfOk : Bool
  rmtreeOk : Bool
  quitOk : Bool

structure PipeState where
  tempFolder : Option String
  tempOnDisk : Bool
  removerCreated : Bool
  driverSet : Bool
  browserRunning : Bool
deriving DecidableEq

def initPipeState : PipeState := ⟨none, false, false, false, false⟩

/-- cleanup_temp_folder: only acts when the field is set and the directory
exists; a failing rmtree is caught, leaving folder and field untouched. -/
def cleanup_temp_folder (env : PipeEnv) (s : PipeState) : PipeState :=
  match s.tempFolder with
  | some _ =>
    if s.tempOnDisk then
      if env.rmtreeOk then { s with tempFolder := none, tempOnDisk := false } else s
    else s
  | none => s

/-- ImageWatermarkRemover.close: when the driver field is set, quit is
attempted (a raise is caught and only logged) and the field is cleared in the
finally block regardless. -/
def remover_close (env : PipeEnv) (s : PipeState) : PipeState :=
  if s.driverSet then
    { s with browserRunning := s.browserRunning && !env.quitOk, driverSet := false }
  else s

/-- The outer finally of process_single_pdf: close the remover if one was
constructed, then clean the temp folder. -/
def pipe_finally (env : PipeEnv) (s : PipeState) : PipeState :=
  cleanup_temp_folder env (if s.removerCreated then remover_close env s else s)

def process_single_pdf (env : PipeEnv) (outputFolder : String) (pdfPath : FPath)
    (outputFilename : Option String) : Option FPath × PipeState :=
  if ¬ env.pdfExists then (none, initPipeState)
  else if ¬ env.mkdtempOk then (none, pipe_finally env initPipeState)
  else
    let s1 : PipeState := ⟨some env.tempName, true, false, false, false⟩
    let images := env.convertedImages.map (joinPath env.tempName)
    if images.isEmpty then (none, pipe_finally env s1)
    else
      let s2 : PipeState := { s1 with removerCreated := true }
      if ¬ env.setupChromeOk then (none, pipe_finally env s2)
      else
        let s3 : PipeState := { s2 with driverSet := true, browserRunning := true }
        let processed := process_multiple_images FPath FPath env.siteResult images
        let s4 := remover_close env s3
        if processed.isEmpty then (none, pipe_finally env s4)
        else
          let outName := outputFilename.getD ("NoWatermark_" ++ pyStemName pdfPath.base ++ ".pdf")
          if env.createPdfOk then (some (joinPath outputFolder outName), pipe_finally env s4)
          else (none, pipe_finally env s4)

/-! ## PDFWatermarkProcessor.process_multiple_pdfs

Glob the folder, sort the hits, and run process_single_pdf on each in turn,
recording one result dict per file with success = bool(result_path). -/

structure PdfRecord where
  inputFile : String
  outputPath : Option FPath
  success : Bool
deriving DecidableEq

structure BatchEnv where
  folderExists : Bool
  matched : List String
  single : String → Option FPath

def batchLoop (single : String → Option FPath) : List String → List PdfRecord
  | [] => []
  | f :: fs => ⟨f, single f, (single f).isSome⟩ :: batchLoop single fs

def process_multiple_pdfs (env : BatchEnv) : List PdfRecord :=
  if ¬ env.folderExists then []
  else
    let files := sortFilenames env.matched
    if files.isEmpty then [] else batchLoop env.single files

/-! ## The GUI of rsc/main.py

start_processing refuses when no file is selected or when the processing
flag is already set; otherwise it sets the flag and starts one worker
thread.  The worker's finally block clears the flag when the run ends. -/

structure GuiState where
  fileSelected : Bool
  processing : Bool
  activeWorkers : Nat
deriving DecidableEq

inductive GuiEvent where
  | selectFile
  | clickStart
  | workerDone
deriving DecidableEq

def guiInit : GuiState := ⟨false, false, 0⟩

def guiStep (s : GuiState) : GuiEvent → GuiState
  | .selectFile => { s with fileSelected := true }
  | .clickStart =>
    if ¬ s.fileSelected then s
    else if s.processing then s
    else { s with processing := true, activeWorkers := s.activeWorkers + 1 }
  | .workerDone =>
    if s.activeWorkers = 0 then s
    else { s with processing := false, activeWorkers := s.activeWorkers - 1 }

/-- States reachable from the freshly constructed GUI. -/
inductive GuiReachable : GuiState → Prop where
  | init : GuiReachable guiInit
  | step : ∀ {s : GuiState} (e : GuiEvent), GuiReachable s → GuiReachable (guiStep s e)

/-! # Helper lemmas -/

theorem process_multiple_images_eq_filterMap (α β : Type) (f : α → Option β) :
    ∀ xs : List α, process_multiple_images α β f xs = xs.filterMap f
  | [] => rfl
  | p :: ps => by
    simp only [process_multiple_images, List.filterMap_cons]
    cases f p <;> simp [process_multiple_images_eq_filterMap α β f ps]

theorem probeSelectors_eq_findSome? (lookup : String → Option UploadEl) :
    ∀ sels : List String,
      probeSelectors lookup sels =
        sels.findSome? (fun sel => (lookup sel).bind (fun el => if el.enabled then some el else none))
  | [] => rfl
  | sel :: rest => by
    simp only [probeSelectors, List.findSome?_cons]
    cases lookup sel with
    | none => simpa using probeSelectors_eq_findSome? lookup rest
    | some el =>
      cases h : el.enabled <;>
        simp [Option.bind, h, probeSelectors_eq_findSome? lookup rest]

theorem probeSelectors_eq_none_iff (lookup : String → Option UploadEl) :
    ∀ sels : List String,
      (probeSelectors lookup sels = none ↔
        ∀ sel ∈ sels, ∀ el, lookup sel = some el → el.enabled = false)
  | [] => by simp [probeSelectors]
  | sel :: rest => by
    simp only [probeSelectors]
    cases hl : lookup sel with
    | none =>
      rw [probeSelectors_eq_none_iff lookup rest]
      constructor
      · intro h s hs el he
        rcases List.mem_cons.mp hs with rfl | hs
        · rw [hl] at he; cases he
        · exact h s hs el he
      · intro h s hs el he
        exact h s (List.mem_cons_of_mem _ hs) el he
    | some el =>
      cases he : el.enabled with
      | true =>
        simp only [he, if_true]
        constructor
        · intro h; cases h
        · intro h
          have := h sel (List.mem_cons_self _ _) el hl
          rw [he] at this; cases this
      | false =>
        simp only [he, Bool.false_eq_true, if_false]
        rw [probeSelectors_eq_none_iff lookup rest]
        constructor
        · intro h s hs el2 he2
          rcases List.mem_cons.mp hs with rfl | hs
          · rw [hl] at he2
            cases he2
            exact he
          · exact h s hs el2 he2
        · intro h s hs el2 he2
          exact h s (List.mem_cons_of_mem _ hs) el2 he2

theorem fmt03d_data : ∀ i, i < 1000 → (fmt03d i).data = digits3 i := by decide

theorem dch_lt : ∀ a, a < 10 → ∀ b, b < 10 → (dch a < dch b ↔ a < b) := by decide

theorem lex_append_left (p : List Char) {u v : List Char}
    (h : List.Lex (· < ·) u v) : List.Lex (· < ·) (p ++ u) (p ++ v) := by
  induction p with
  | nil => simpa using h
  | cons c cs ih => exact List.Lex.cons ih

theorem digits3_lex {i j : Nat} (hij : i < j) (hj : j ≤ 999) (r1 r2 : List Char) :
    List.Lex (· < ·) (digits3 i ++ r1) (digits3 j ++ r2) := by
  have h100i : i / 100 < 10 := by omega
  have h100j : j / 100 < 10 := by omega
  have h10i : i / 10 % 10 < 10 := by omega
  have h10j : j / 10 % 10 < 10 := by omega
  have h1i : i % 10 < 10 := by omega
  have h1j : j % 10 < 10 := by omega
  have tri : i / 100 < j / 100 ∨
      (i / 100 = j / 100 ∧ i / 10 % 10 < j / 10 % 10) ∨
      (i / 100 = j / 100 ∧ i / 10 % 10 = j / 10 % 10 ∧ i % 10 < j % 10) := by omega
  simp only [digits3, List.cons_append, List.nil_append]
  rcases tri with h | ⟨e1, h⟩ | ⟨e1, e2, h⟩
  · exact List.Lex.rel ((dch_lt _ h100i _ h100j).mpr h)
  · rw [e1]
    exact List.Lex.cons (List.Lex.rel ((dch_lt _ h10i _ h10j).mpr h))
  · rw [e1, e2]
    exact List.Lex.cons (List.Lex.cons (List.Lex.rel ((dch_lt _ h1i _ h1j).mpr h)))

theorem lastDotIdx_append_png (s : List Char) :
    lastDotIdx (s ++ ('.' :: 'p' :: 'n' :: 'g' :: [])) = some s.length := by
  induction s with
  | nil => rfl
  | cons c cs ih => simp [lastDotIdx, ih]

theorem stemFrom_append_png (s : List Char) (hs : s ≠ []) :
    stemFrom (s ++ ('.' :: 'p' :: 'n' :: 'g' :: [])) = s := by
  have hlen : 0 < s.length := List.length_pos.mpr hs
  have hcond : 0 < s.length ∧ s.length < (s ++ ('.' :: 'p' :: 'n' :: 'g' :: [])).length - 1 := by
    refine ⟨hlen, ?_⟩
    simp [List.length_append]
  simp only [stemFrom, lastDotIdx_append_png, hcond, List.take_left]
  simp

theorem pyStem_append_png (s : String) (hs : s.data ≠ []) :
    pyStemName (s ++ ".png") = s := by
  have hd : (s ++ ".png").data = s.data ++ ('.' :: 'p' :: 'n' :: 'g' :: []) := by
    rw [String.data_append]
  unfold pyStemName
  rw [hd, stemFrom_append_png s.data hs]

theorem imageFilename_png (stem : String) (k : Nat) :
    imageFilename stem "png" k = (stem ++ "_page_" ++ fmt03d k) ++ ".png" := by
  unfold imageFilename
  rw [String.append_assoc (stem ++ "_page_" ++ fmt03d k)]
  rfl

theorem imageFilename_png_data_ne_nil (stem : String) (k : Nat) :
    (stem ++ "_page_" ++ fmt03d k).data ≠ [] := by
  apply List.length_pos.mp
  have h6 : ("_page_" : String).data.length = 6 := rfl
  simp [String.data_append, List.length_append, h6]

theorem pipelinePage_eq (pdfStem dlExt : String) (k : Nat) :
    pipelinePage pdfStem dlExt k = "processed_" ++ (pdfStem ++ "_page_" ++ fmt03d k) ++ dlExt := by
  unfold pipelinePage processedFilename
  rw [imageFilename_png, pyStem_append_png _ (imageFilename_png_data_ne_nil pdfStem k)]

theorem pipelinePage_data_lt (pdfStem dlExt : String) {i j : Nat}
    (hij : i < j) (hj : j ≤ 999) :
    List.Lex (· < ·) (pipelinePage pdfStem dlExt i).data (pipelinePage pdfStem dlExt j).data := by
  rw [pipelinePage_eq, pipelinePage_eq]
  simp only [String.data_append, List.append_assoc]
  rw [fmt03d_data i (by omega), fmt03d_data j (by omega)]
  exact lex_append_left _ (lex_append_left _ (lex_append_left _ (digits3_lex hij hj _ _)))

theorem pipelinePaths_sorted (tmp pdfStem dlExt : String) {n : Nat} (hn : n ≤ 999) :
    List.Sorted pathKeyLe (pipelinePaths tmp pdfStem dlExt n) := by
  rw [pipelinePaths, List.Sorted, List.pairwise_iff_getElem]
  intro a b h1 h2 hab
  simp only [List.getElem_map, List.getElem_range]
  have hb : b < n := by simpa using h2
  exact le_of_lt (pipelinePage_data_lt pdfStem dlExt (by omega) (by omega))

/-! # Claim theorems -/

/-- Claim C1: process_multiple_images visits the image list one at a time in
list order; an image whose processing yields no result is skipped (the loop
continues with the later images), and the returned list contains exactly the
results of the images that succeeded, in the order their sources appeared in
the input list. -/
theorem C1_process_multiple_images_skip_order (α β : Type) (f : α → Option β)
    (xs ys : List α) (p : α) :
    process_multiple_images α β f xs = xs.filterMap f
    ∧ process_multiple_images α β f (xs ++ ys) =
        process_multiple_images α β f xs ++ process_multiple_images α β f ys
    ∧ (f p = none →
        process_multiple_images α β f (xs ++ p :: ys) =
          process_multiple_images α β f (xs ++ ys)) := by
  refine ⟨process_multiple_images_eq_filterMap α β f xs, ?_, ?_⟩
  · rw [process_multiple_images_eq_filterMap, process_multiple_images_eq_filterMap,
      process_multiple_images_eq_filterMap, List.filterMap_append]
  · intro hp
    rw [process_multiple_images_eq_filterMap, process_multiple_images_eq_filterMap,
      List.filterMap_append, List.filterMap_append, List.filterMap_cons, hp]

theorem C1_witness :
    ((fun n : Nat => if n % 2 = 0 then some n else none) 1 = none)
    ∧ process_multiple_images Nat Nat (fun n => if n % 2 = 0 then some n else none)
        ([2] ++ 1 :: [4]) =
      process_multiple_images Nat Nat (fun n => if n % 2 = 0 then some n else none)
        ([2] ++ [4]) :=
  ⟨by decide,
   (C1_process_multiple_images_skip_order Nat Nat
     (fun n => if n % 2 = 0 then some n else none) [2] [4] 1).2.2 (by decide)⟩

/-- Claim C4: convert_pdf_to_images hands the rasterizer the single dpi value
fixed at construction (the same one on every call of that converter, default
300) and returns one image path per page of the PDF. -/
theorem C4_fixed_dpi (c : PDFToImages) (env : RasterEnv) (pdfPath : FPath)
    (outF : String) (h : env.pdfExists = true) :
    (convert_pdf_to_images c env pdfPath outF).1 = some c.dpi
    ∧ (convert_pdf_to_images c env pdfPath outF).2.length = env.pageCount
    ∧ mkPDFToImages.dpi = 300 := by
  simp [convert_pdf_to_images, h, mkPDFToImages]

theorem C4_witness :
    ((⟨true, 3⟩ : RasterEnv).pdfExists = true)
    ∧ ((convert_pdf_to_images mkPDFToImages ⟨true, 3⟩ (joinPath "in" "doc.pdf") "out").1 =
        some mkPDFToImages.dpi
      ∧ (convert_pdf_to_images mkPDFToImages ⟨true, 3⟩ (joinPath "in" "doc.pdf") "out").2.length =
          (⟨true, 3⟩ : RasterEnv).pageCount
      ∧ mkPDFToImages.dpi = 300) :=
  ⟨rfl, C4_fixed_dpi mkPDFToImages ⟨true, 3⟩ (joinPath "in" "doc.pdf") "out" rfl⟩

/-- Claim C5: find_upload_input probes its fixed list of six CSS selectors in
order, traversing it at most once: it returns the first element that is found
and enabled, and none when no selector yields such an element. -/
theorem C5_find_upload_input (lookup : String → Option UploadEl) :
    find_upload_input lookup =
      uploadSelectors.findSome?
        (fun sel => (lookup sel).bind (fun el => if el.enabled then some el else none))
    ∧ (find_upload_input lookup = none ↔
        ∀ sel ∈ uploadSelectors, ∀ el, lookup sel = some el → el.enabled = false)
    ∧ uploadSelectors.length = 6 :=
  ⟨probeSelectors_eq_findSome? lookup uploadSelectors,
   probeSelectors_eq_none_iff lookup uploadSelectors, rfl⟩

theorem C5_witness :
    find_upload_input (fun _ => some ⟨false⟩) = none
    ∧ (∀ sel ∈ uploadSelectors, ∀ el : UploadEl,
        (fun _ : String => some (⟨false⟩ : UploadEl)) sel = some el → el.enabled = false) := by
  have hall : ∀ sel ∈ uploadSelectors, ∀ el : UploadEl,
      (fun _ : String => some (⟨false⟩ : UploadEl)) sel = some el → el.enabled = false := by
    intro sel hs el he
    injection he with h2
    rw [← h2]
  exact ⟨(C5_find_upload_input (fun _ => some ⟨false⟩)).2.1.mpr hall, hall⟩

/-- Claim C3 (amended): rasterization names the image of page i with the
03d-formatted page number and returns the paths in page order, and reassembly
sorts the given paths by basename; for every input PDF with at most 999 pages
whose pages are all converted and processed successfully, the reassembled
page order therefore equals the input page order.  (The bound is needed: with
1000 or more pages the 03d numbers grow to four digits and basename sorting
misorders them, see the counterexample.) -/
theorem C3_page_order_amended (pdfStem dlExt tmp : String) (n : Nat) (hn : n ≤ 999) :
    (∀ i, i < n →
      ((List.range n).map (fun k => imageFilename pdfStem "png" (k + 1)))[i]? =
        some (imageFilename pdfStem "png" (i + 1)))
    ∧ sortByBasename (pipelinePaths tmp pdfStem dlExt n) = pipelinePaths tmp pdfStem dlExt n := by
  constructor
  · intro i hi
    simp [List.getElem?_map, List.getElem?_range, hi]
  · exact (pipelinePaths_sorted tmp pdfStem dlExt hn).insertionSort_eq

theorem C3_witness :
    2 ≤ 999
    ∧ ((∀ i, i < 2 →
        ((List.range 2).map (fun k => imageFilename "doc" "png" (k + 1)))[i]? =
          some (imageFilename "doc" "png" (i + 1)))
      ∧ sortByBasename (pipelinePaths "t" "doc" ".png" 2) = pipelinePaths "t" "doc" ".png" 2) :=
  ⟨by decide, C3_page_order_amended "doc" ".png" "t" 2 (by decide)⟩

/-- Claim C3 counterexample: for a 1000-page PDF processed successfully, the
basename sort of the reassembly step does not return the pages in page order
(page 1000 sorts between pages 100 and 101), so the unrestricted claim is
false. -/
theorem C3_counterexample :
    sortByBasename (pipelinePaths "t" "doc" ".png" 1000) ≠
      pipelinePaths "t" "doc" ".png" 1000 := by
  intro h
  have hs : List.Sorted pathKeyLe (pipelinePaths "t" "doc" ".png" 1000) := by
    rw [← h]
    exact List.sorted_insertionSort pathKeyLe _
  rw [List.Sorted, List.pairwise_iff_getElem] at hs
  have hlen : (pipelinePaths "t" "doc" ".png" 1000).length = 1000 := by
    simp [pipelinePaths]
  have h98 : (998 : Nat) < (pipelinePaths "t" "doc" ".png" 1000).length := by omega
  have h99 : (999 : Nat) < (pipelinePaths "t" "doc" ".png" 1000).length := by omega
  have hp := hs 998 999 h98 h99 (by omega)
  simp only [pipelinePaths, List.getElem_map, List.getElem_range] at hp
  exact absurd hp (by decide)

theorem batchLoop_eq_map (single : String → Option FPath) :
    ∀ fs : List String,
      batchLoop single fs = fs.map (fun f => ⟨f, single f, (single f).isSome⟩)
  | [] => rfl
  | f :: fs => by simp [batchLoop, batchLoop_eq_map single fs]

/-- Claim C6: process_multiple_pdfs handles the matched files one at a time in
sorted filename order and returns exactly one record per matched file, in
that order, with success true exactly when a final PDF path was produced; a
failing file (single returns none) does not prevent the remaining files from
being processed. -/
theorem C6_process_multiple_pdfs (env : BatchEnv) (h : env.folderExists = true) :
    process_multiple_pdfs env =
      (sortFilenames env.matched).map (fun f => ⟨f, env.single f, (env.single f).isSome⟩)
    ∧ (process_multiple_pdfs env).length = env.matched.length
    ∧ (∀ r ∈ process_multiple_pdfs env, (r.success = true ↔ r.outputPath.isSome = true)) := by
  have hmain : process_multiple_pdfs env =
      (sortFilenames env.matched).map (fun f => ⟨f, env.single f, (env.single f).isSome⟩) := by
    unfold process_multiple_pdfs
    simp only [h, not_true, if_neg, ite_false, Bool.not_eq_true]
    cases hfe : (sortFilenames env.matched).isEmpty
    · simp [hfe, batchLoop_eq_map]
    · have hnil : sortFilenames env.matched = [] := by
        simpa [List.isEmpty_iff] using hfe
      simp [hfe, hnil]
  refine ⟨hmain, ?_, ?_⟩
  · rw [hmain]
    simp [sortFilenames]
  · intro r hr
    rw [hmain] at hr
    obtain ⟨f, hf, rfl⟩ := List.mem_map.mp hr
    simp

theorem C6_witness :
    ((⟨true, ["b.pdf", "a.pdf"],
        fun f => if f = "a.pdf" then some (joinPath "out" "NoWatermark_a.pdf") else none⟩ :
        BatchEnv).folderExists = true)
    ∧ process_multiple_pdfs
        ⟨true, ["b.pdf", "a.pdf"],
          fun f => if f = "a.pdf" then some (joinPath "out" "NoWatermark_a.pdf") else none⟩ =
      (sortFilenames ["b.pdf", "a.pdf"]).map
        (fun f => ⟨f,
          (if f = "a.pdf" then some (joinPath "out" "NoWatermark_a.pdf") else none),
          (if f = "a.pdf" then some (joinPath "out" "NoWatermark_a.pdf") else none).isSome⟩) :=
  ⟨rfl,
   (C6_process_multiple_pdfs
     ⟨true, ["b.pdf", "a.pdf"],
       fun f => if f = "a.pdf" then some (joinPath "out" "NoWatermark_a.pdf") else none⟩ rfl).1⟩

theorem dlPoll_none (env : DLEnv) (orig : String) :
    ∀ fuel t, (∀ u, t ≤ u → u < t + fuel → completeNewFiles env u = []) →
      dlPoll env orig fuel t = none
  | 0, _, _ => rfl
  | fuel + 1, t, h => by
    have h0 : completeNewFiles env t = [] := h t le_rfl (by omega)
    simp only [dlPoll, h0, List.head?_nil]
    exact dlPoll_none env orig fuel (t + 1) (fun u hu1 hu2 => h u (by omega) (by omega))

theorem dlPoll_hit (env : DLEnv) (orig : String) :
    ∀ fuel t t0 f, t ≤ t0 → t0 < t + fuel →
      (∀ u, t ≤ u → u < t0 → completeNewFiles env u = []) →
      (completeNewFiles env t0).head? = some f →
      dlPoll env orig fuel t = some (dlFinish env orig f)
  | 0, t, t0, _, h1, h2, _, _ => absurd h2 (by omega)
  | fuel + 1, t, t0, f, h1, h2, hpre, hf => by
    by_cases ht : t = t0
    · subst ht
      simp only [dlPoll, hf]
    · have h0 : completeNewFiles env t = [] := hpre t le_rfl (by omega)
      simp only [dlPoll, h0, List.head?_nil]
      exact dlPoll_hit env orig fuel (t + 1) t0 f (by omega) (by omega)
        (fun u hu1 hu2 => hpre u (by omega) hu2) hf

/-- Claim C7 (amended): download_processed_image polls the download folder for
at most the 60-second timeout; when the first tick with a completed new file
(one absent before the click and not ending in .crdownload, .tmp or .part)
occurs within the window, it returns that file's path renamed to
processed_(original stem)(ext) - where ext is the downloaded file's extension,
falling back to the original's extension when the downloaded name has none -
or the unrenamed path when the rename fails; when no tick in the window shows
a completed new file it returns none. -/
theorem C7_download_amended (env : DLEnv) (orig : String) :
    ((∀ t, t < 60 → completeNewFiles env t = []) →
      download_processed_image env orig = none)
    ∧ (∀ t0 f, t0 < 60 → (∀ t, t < t0 → completeNewFiles env t = []) →
        (completeNewFiles env t0).head? = some f →
        download_processed_image env orig = some (dlFinish env orig f)) := by
  constructor
  · intro h
    exact dlPoll_none env orig 60 0 (fun u _ hu2 => h u (by omega))
  · intro t0 f h1 h2 hf
    exact dlPoll_hit env orig 60 0 t0 f (by omega) (by omega) (fun u _ hu2 => h2 u hu2) hf

theorem C7_witness :
    (1 < 60)
    ∧ (∀ t, t < 1 →
        completeNewFiles ⟨"dl", [], fun t2 => if t2 = 0 then [] else ["x.png"], true⟩ t = [])
    ∧ ((completeNewFiles ⟨"dl", [], fun t2 => if t2 = 0 then [] else ["x.png"], true⟩ 1).head? =
        some "x.png")
    ∧ download_processed_image
        ⟨"dl", [], fun t2 => if t2 = 0 then [] else ["x.png"], true⟩ "page_001.png" =
      some (dlFinish ⟨"dl", [], fun t2 => if t2 = 0 then [] else ["x.png"], true⟩
        "page_001.png" "x.png") :=
  ⟨by decide, by decide, by decide,
   (C7_download_amended ⟨"dl", [], fun t2 => if t2 = 0 then [] else ["x.png"], true⟩
     "page_001.png").2 1 "x.png" (by decide) (by decide) (by decide)⟩

/-- Claim C7 counterexample: when the downloaded file has no extension (here
the new file imagefile), the code falls back to the original extension and
returns processed_page_001.png, not the name promised by the claim
(processed_(stem)(downloaded extension) = processed_page_001), so the claim
as stated is false at this input. -/
theorem C7_counterexample :
    download_processed_image ⟨"dl", [], fun _ => ["imagefile"], true⟩ "page_001.png" =
      some (joinPath "dl" "processed_page_001.png")
    ∧ "processed_page_001.png" ≠ c7ClaimedName "page_001.png" "imagefile" := by
  constructor
  · decide
  · decide

theorem gui_invariant (s : GuiState) (h : GuiReachable s) :
    (s.processing = false → s.activeWorkers = 0) ∧ s.activeWorkers ≤ 1 := by
  induction h with
  | init => simp [guiInit]
  | @step s2 e hr ih =>
    rcases ih with ⟨ih1, ih2⟩
    cases e with
    | selectFile => exact ⟨ih1, ih2⟩
    | clickStart =>
      cases hfs : s2.fileSelected with
      | false => simp only [guiStep, hfs]; simp; exact ⟨ih1, ih2⟩
      | true =>
        cases hpr : s2.processing with
        | true => simp only [guiStep, hfs, hpr]; simp; exact ⟨ih1, ih2⟩
        | false =>
          have h0 := ih1 hpr
          simp only [guiStep, hfs, hpr]
          refine ⟨by simp, ?_⟩
          simp
          omega
    | workerDone =>
      cases hw : s2.activeWorkers with
      | zero => simp only [guiStep, hw]; simp; exact ⟨ih1, ih2⟩
      | succ m =>
        simp only [guiStep, hw]
        simp
        constructor <;> omega

/-- Claim C8: in the GUI, clicking start while the processing flag is set is
refused (the state does not change, no worker starts), and in every state
reachable from the freshly constructed GUI at most one background worker
started by it is active. -/
theorem C8_single_worker (s : GuiState) (h : GuiReachable s) :
    s.activeWorkers ≤ 1 ∧ (s.processing = true → guiStep s .clickStart = s) := by
  refine ⟨(gui_invariant s h).2, ?_⟩
  intro hp
  cases hfs : s.fileSelected <;> simp [guiStep, hfs, hp]

theorem C8_witness :
    GuiReachable (guiStep (guiStep guiInit .selectFile) .clickStart)
    ∧ ((guiStep (guiStep guiInit .selectFile) .clickStart).activeWorkers ≤ 1
      ∧ ((guiStep (guiStep guiInit .selectFile) .clickStart).processing = true →
          guiStep (guiStep (guiStep guiInit .selectFile) .clickStart) .clickStart =
            guiStep (guiStep guiInit .selectFile) .clickStart)) :=
  ⟨GuiReachable.step _ (GuiReachable.step _ GuiReachable.init),
   C8_single_worker _ (GuiReachable.step _ (GuiReachable.step _ GuiReachable.init))⟩

/-- Claim C9: convert_images_to_pdf returns False (raising nothing) when the
image list is empty or when none of the listed paths exists; missing or
unopenable images are silently skipped, so there are inputs where it returns
True while the output PDF has fewer pages than the input list has entries. -/
theorem C9_convert_images (env : ImgEnv) (out : FPath) (paths : List FPath) :
    (convert_images_to_pdf env [] out).1 = false
    ∧ ((∀ p ∈ paths, env.fileExists p = false) →
        (convert_images_to_pdf env paths out).1 = false)
    ∧ (∃ env2 : ImgEnv, ∃ paths2 : List FPath, ∃ out2 : FPath,
        (convert_images_to_pdf env2 paths2 out2).1 = true
        ∧ (convert_images_to_pdf env2 paths2 out2).2 < paths2.length) := by
  refine ⟨?_, ?_, ?_⟩
  · cases hp : env.pilAvailable <;> simp [convert_images_to_pdf, hp]
  · intro h
    cases hp : env.pilAvailable
    · simp [convert_images_to_pdf, hp]
    · cases paths with
      | nil => simp [convert_images_to_pdf, hp]
      | cons a as =>
        have hval : (sortByBasename (a :: as)).filter env.fileExists = [] := by
          rw [List.filter_eq_nil_iff]
          intro p hpmem
          have hpm : p ∈ a :: as := by
            simpa [sortByBasename, List.mem_insertionSort] using hpmem
          simp [h p hpm]
        simp [convert_images_to_pdf, hp, hval]
  · refine ⟨⟨true, fun p => decide (p = joinPath "t" "a.png"), fun _ => true, true⟩,
      [joinPath "t" "a.png", joinPath "t" "missing.png"], joinPath "out" "o.pdf", ?_, ?_⟩ <;>
      decide

theorem C9_witness :
    (∀ p ∈ [joinPath "t" "a.png"],
      (⟨true, fun _ => false, fun _ => true, true⟩ : ImgEnv).fileExists p = false)
    ∧ (convert_images_to_pdf ⟨true, fun _ => false, fun _ => true, true⟩
        [joinPath "t" "a.png"] (joinPath "o" "x.pdf")).1 = false :=
  ⟨by decide,
   (C9_convert_images ⟨true, fun _ => false, fun _ => true, true⟩ (joinPath "o" "x.pdf")
     [joinPath "t" "a.png"]).2.1 (by decide)⟩

/-- Claim C2: process_single_pdf runs the fixed five-step sequence and, for an
existing input PDF, returns none when temp-folder creation fails, when image
conversion yields no images, when browser setup fails, when no image is
processed successfully, or when the final PDF cannot be created; when the
last step succeeds it returns the output-folder path, named
NoWatermark_(stem).pdf when no output filename is given. -/
theorem C2_process_single_pdf (env : PipeEnv) (outF : String) (pdfPath : FPath)
    (oname : Option String) (hx : env.pdfExists = true) :
    (env.mkdtempOk = false → (process_single_pdf env outF pdfPath oname).1 = none)
    ∧ (env.convertedImages = [] → (process_single_pdf env outF pdfPath oname).1 = none)
    ∧ (env.setupChromeOk = false → (process_single_pdf env outF pdfPath oname).1 = none)
    ∧ (process_multiple_images FPath FPath env.siteResult
        (env.convertedImages.map (joinPath env.tempName)) = [] →
        (process_single_pdf env outF pdfPath oname).1 = none)
    ∧ (env.createPdfOk = false → (process_single_pdf env outF pdfPath oname).1 = none)
    ∧ (env.mkdtempOk = true → env.convertedImages ≠ [] → env.setupChromeOk = true →
        process_multiple_images FPath FPath env.siteResult
          (env.convertedImages.map (joinPath env.tempName)) ≠ [] →
        env.createPdfOk = true →
        (process_single_pdf env outF pdfPath oname).1 =
          some (joinPath outF
            (oname.getD ("NoWatermark_" ++ pyStemName pdfPath.base ++ ".pdf")))) := by
  refine ⟨?_, ?_, ?_, ?_, ?_, ?_⟩
  · intro h
    simp [process_single_pdf, hx, h]
  · intro h
    cases hm : env.mkdtempOk
    · simp [process_single_pdf, hx, hm]
    · simp [process_single_pdf, hx, hm, h]
  · intro h
    cases hm : env.mkdtempOk
    · simp [process_single_pdf, hx, hm]
    · cases himg : env.convertedImages with
      | nil => simp [process_single_pdf, hx, hm, himg]
      | cons a as => simp [process_single_pdf, hx, hm, himg, h]
  · intro h
    cases hm : env.mkdtempOk
    · simp [process_single_pdf, hx, hm]
    · cases himg : env.convertedImages with
      | nil => simp [process_single_pdf, hx, hm, himg]
      | cons a as =>
        cases hsu : env.setupChromeOk
        · simp [process_single_pdf, hx, hm, himg, hsu]
        · rw [himg] at h
          simp only [List.map_cons] at h
          simp [process_single_pdf, hx, hm, himg, hsu, h]
  · intro h
    cases hm : env.mkdtempOk
    · simp [process_single_pdf, hx, hm]
    · cases himg : env.convertedImages with
      | nil => simp [process_single_pdf, hx, hm, himg]
      | cons a as =>
        cases hsu : env.setupChromeOk
        · simp [process_single_pdf, hx, hm, himg, hsu]
        · cases hpr : process_multiple_images FPath FPath env.siteResult
              (joinPath env.tempName a :: as.map (joinPath env.tempName)) with
          | nil => simp [process_single_pdf, hx, hm, himg, hsu, hpr]
          | cons b bs => simp [process_single_pdf, hx, hm, himg, hsu, hpr, h]
  · intro h1 h2 h3 h4 h5
    cases himg : env.convertedImages with
    | nil => exact absurd himg h2
    | cons a as =>
      rw [himg] at h4
      simp only [List.map_cons] at h4
      cases hpr : process_multiple_images FPath FPath env.siteResult
          (joinPath env.tempName a :: as.map (joinPath env.tempName)) with
      | nil => exact absurd hpr h4
      | cons b bs => simp [process_single_pdf, hx, h1, himg, h3, hpr, h5]

theorem C2_witness :
    (process_single_pdf
      ⟨true, true, "tmp1", ["doc_page_001.png"], true, fun p => some p, true, true, true⟩
      "out" (joinPath "in" "doc.pdf") none).1 =
      some (joinPath "out" ((none : Option String).getD
        ("NoWatermark_" ++ pyStemName (joinPath "in" "doc.pdf").base ++ ".pdf"))) :=
  (C2_process_single_pdf
    ⟨true, true, "tmp1", ["doc_page_001.png"], true, fun p => some p, true, true, true⟩
    "out" (joinPath "in" "doc.pdf") none rfl).2.2.2.2.2
    rfl (by decide) rfl (by decide) rfl

/-- Claim C10 (amended): on every outcome of process_single_pdf the cleanup
runs before the call returns: any started driver has its field cleared and
the browser is quit whenever driver.quit raises no error, and the temporary
folder is deleted with the temp_folder field reset to none whenever
shutil.rmtree raises no error; a failing rmtree leaves the folder on disk and
the field pointing at it, and a failing quit leaves the browser process, with
the errors only logged. -/
theorem C10_cleanup_amended (env : PipeEnv) (outF : String) (pdfPath : FPath)
    (oname : Option String) :
    ((process_single_pdf env outF pdfPath oname).2.driverSet = false)
    ∧ (env.quitOk = true →
        (process_single_pdf env outF pdfPath oname).2.browserRunning = false)
    ∧ (env.rmtreeOk = true →
        (process_single_pdf env outF pdfPath oname).2.tempOnDisk = false
        ∧ (process_single_pdf env outF pdfPath oname).2.tempFolder = none) := by
  cases hpdf : env.pdfExists with
  | false => simp [process_single_pdf, hpdf, initPipeState]
  | true =>
    cases hm : env.mkdtempOk with
    | false =>
      simp [process_single_pdf, hpdf, hm, pipe_finally, cleanup_temp_folder,
        remover_close, initPipeState]
    | true =>
      cases himg : env.convertedImages with
      | nil =>
        cases hr : env.rmtreeOk <;>
          simp [process_single_pdf, hpdf, hm, himg, pipe_finally, cleanup_temp_folder,
            remover_close, hr]
      | cons a as =>
        cases hsu : env.setupChromeOk with
        | false =>
          cases hr : env.rmtreeOk <;>
            simp [process_single_pdf, hpdf, hm, himg, hsu, pipe_finally,
              cleanup_temp_folder, remover_close, hr]
        | true =>
          cases hpr : process_multiple_images FPath FPath env.siteResult
              (joinPath env.tempName a :: as.map (joinPath env.tempName)) with
          | nil =>
            cases hr : env.rmtreeOk <;> cases hq : env.quitOk <;>
              simp [process_single_pdf, hpdf, hm, himg, hsu, hpr, pipe_finally,
                cleanup_temp_folder, remover_close, hr, hq]
          | cons b bs =>
            cases hcr : env.createPdfOk <;> cases hr : env.rmtreeOk <;>
              cases hq : env.quitOk <;>
              simp [process_single_pdf, hpdf, hm, himg, hsu, hpr, hcr, pipe_finally,
                cleanup_temp_folder, remover_close, hr, hq]

theorem C10_witness :
    ((⟨true, true, "tmp1", ["doc_page_001.png"], true, fun p => some p, true, true, true⟩ :
        PipeEnv).quitOk = true)
    ∧ ((⟨true, true, "tmp1", ["doc_page_001.png"], true, fun p => some p, true, true, true⟩ :
        PipeEnv).rmtreeOk = true)
    ∧ (process_single_pdf
        ⟨true, true, "tmp1", ["doc_page_001.png"], true, fun p => some p, true, true, true⟩
        "out" (joinPath "in" "doc.pdf") none).2.browserRunning = false
    ∧ ((process_single_pdf
        ⟨true, true, "tmp1", ["doc_page_001.png"], true, fun p => some p, true, true, true⟩
        "out" (joinPath "in" "doc.pdf") none).2.tempOnDisk = false
      ∧ (process_single_pdf
          ⟨true, true, "tmp1", ["doc_page_001.png"], true, fun p => some p, true, true, true⟩
          "out" (joinPath "in" "doc.pdf") none).2.tempFolder = none) :=
  ⟨rfl, rfl,
   (C10_cleanup_amended
     ⟨true, true, "tmp1", ["doc_page_001.png"], true, fun p => some p, true, true, true⟩
     "out" (joinPath "in" "doc.pdf") none).2.1 rfl,
   (C10_cleanup_amended
     ⟨true, true, "tmp1", ["doc_page_001.png"], true, fun p => some p, true, true, true⟩
     "out" (joinPath "in" "doc.pdf") none).2.2 rfl⟩

/-- Claim C10 counterexample: when both shutil.rmtree and driver.quit raise
(their exceptions are caught and only logged), a successful run returns with
the temp folder still on disk, the temp_folder field still set, and the
browser still running - so the unconditional claim is false at this input. -/
theorem C10_counterexample :
    ¬ (((process_single_pdf
          ⟨true, true, "tmp1", ["doc_page_001.png"], true, fun p => some p, true, false, false⟩
          "out" (joinPath "in" "doc.pdf") none).2.tempOnDisk = false)
      ∧ ((process_single_pdf
          ⟨true, true, "tmp1", ["doc_page_001.png"], true, fun p => some p, true, false, false⟩
          "out" (joinPath "in" "doc.pdf") none).2.tempFolder = none)
      ∧ ((process_single_pdf
          ⟨true, true, "tmp1", ["doc_page_001.png"], true, fun p => some p, true, false, false⟩
          "out" (joinPath "in" "doc.pdf") none).2.browserRunning = false)) := by
  decide
